import Mathlib

/-!
Verification of the py-address-screen API client (`py_address_screen/api_client.py`,
`csv_processor.py`, `__init__.py`) against its design specification.

The Python code is shallowly embedded: JSON payloads become an inductive `Json`
type, Python exceptions become the `PyErr` type, the HTTP transport becomes an
environment function from (endpoint, attempt number) to a request outcome, the
memoized `_categories` attribute becomes explicit `Option (List String)` state,
and the `asyncio` fan-out in `screen_addresses` becomes a completion-order
parameter feeding a positional result-slot fold (mirroring `asyncio.gather`,
which stores each task's value at the task's index regardless of completion
order).  The `asyncio.Semaphore` admission discipline is embedded as a labelled
transition system over per-task phases.
-/

namespace PyAddressScreen

/-- JSON values as delivered by the upstream API.  A JSON `null` and a missing
key both surface as Python `None` through `dict.get`, so `null` is represented
by `Option` at every use site rather than by a constructor. -/
inductive Json where
  | str (s : String)
  | num (n : Int)
  | bool (b : Bool)
  | arr (elems : List Json)
  | obj (fields : List (String × Json))

/-- Python truthiness (`if cluster`, `if cat.get("categoryName")`): empty
strings, zero, `False` and empty containers are falsy. -/
def Json.truthy : Json → Bool
  | .str s => !(s == "")
  | .num n => !(n == 0)
  | .bool b => b
  | .arr xs => !xs.isEmpty
  | .obj fs => !fs.isEmpty

/-- The Python exception classes that appear in `api_client.py`.
`clientError` and `clientResponseError` model `aiohttp.ClientError` and its
subclass `aiohttp.ClientResponseError` (the latter is what
`response.raise_for_status()` raises for every non-200 status). -/
inductive PyErr where
  | clientError (msg : String)
  | clientResponseError (status : Nat) (msg : String)
  | valueError (msg : String)
  | jsonDecodeError (msg : String)
  | runtimeError (msg : String)
  | attributeError (msg : String)
  | typeError (msg : String)
deriving Repr, DecidableEq

/-- `isinstance(e, aiohttp.ClientError)`: the tenacity predicate
`retry_if_exception_type(aiohttp.ClientError)` matches both network-level
client errors and HTTP-status errors, since `ClientResponseError` subclasses
`ClientError`. -/
def PyErr.isClientError : PyErr → Bool
  | .clientError _ => true
  | .clientResponseError _ _ => true
  | _ => false

/-- Python `str(e)` on the embedded exceptions (messages are carried verbatim;
`ClientResponseError` stringifies with its status). -/
def pyStr : PyErr → String
  | .clientError m => m
  | .clientResponseError c m => toString c ++ ", message=" ++ m
  | .valueError m => m
  | .jsonDecodeError m => m
  | .runtimeError m => m
  | .attributeError m => m
  | .typeError m => m

/-- `config.py` `Config` dataclass (fields and defaults as in the source;
`retry_delay` is the float `1.0` there, modelled in whole seconds). -/
structure Config where
  chainalysis_api_key : String
  chainalysis_base_url : String := "https://api.chainalysis.com"
  rate_limit : Nat := 5
  max_concurrent_requests : Nat := 10
  max_retries : Nat := 3
  retry_delay : Nat := 1
  include_indirect_exposure : Bool := true
  output_format : String := "csv"

/-- Outcome of one underlying `session.get` attempt, as observed by
`_make_request`'s try block:
* `success`: status 200 and the body parsed, yielding a JSON value;
* `netError`: `aiohttp.ClientError` raised at the network level;
* `httpStatus`: non-200 status, so `raise_for_status()` raises
  `ClientResponseError` (a `ClientError`);
* `badJson`: status 200 but the body fails JSON decoding
  (`json.JSONDecodeError`, not an `aiohttp.ClientError`). -/
inductive ReqOutcome where
  | success (body : Json)
  | netError (msg : String)
  | httpStatus (code : Nat) (msg : String)
  | badJson (msg : String)

/-- The exception (or value) produced by one attempt. -/
def outcomeExcept : ReqOutcome → Except PyErr Json
  | .success j => .ok j
  | .netError m => .error (.clientError m)
  | .httpStatus c m => .error (.clientResponseError c m)
  | .badJson m => .error (.jsonDecodeError m)

/-- `tenacity.wait_exponential(multiplier, min, max)`: the sleep before the
retry following the `attemptNumber`-th (1-based) failed attempt is
`multiplier * 2 ^ (attemptNumber - 1)` clamped into `[lo, hi]`. -/
def waitExponential (multiplier lo hi attemptNumber : Nat) : Nat :=
  max lo (min (multiplier * 2 ^ (attemptNumber - 1)) hi)

/-- The retry loop that `@retry(stop=stop_after_attempt(3), wait=
wait_exponential(multiplier=1, min=1, max=10),
retry=retry_if_exception_type(aiohttp.ClientError), reraise=True)` wraps
around the body of `_make_request`.  `remaining` counts the retries still
allowed after the current attempt, `attempt` is the 0-based attempt index.
Returns the final result, the number of attempts performed, and the list of
backoff sleeps taken between attempts (in order). -/
def retryCore (env : Nat → ReqOutcome) : Nat → Nat → Except PyErr Json × Nat × List Nat
  | remaining, attempt =>
    match outcomeExcept (env attempt) with
    | .ok j => (.ok j, attempt + 1, [])
    | .error e =>
      match remaining with
      | 0 => (.error e, attempt + 1, [])
      | r + 1 =>
        if e.isClientError then
          let rest := retryCore env r (attempt + 1)
          (rest.1, rest.2.1, waitExponential 1 1 10 (attempt + 1) :: rest.2.2)
        else (.error e, attempt + 1, [])

/-- `_make_request(endpoint)`.  `session` models whether the aiohttp session
was initialized by the async context manager (the guard at the top of the
function raises `RuntimeError` otherwise, outside the retried try block and
before any attempt).  The transport environment `env` maps an endpoint and a
0-based attempt index to that attempt's outcome.  Returns the result together
with the request log: one `(endpoint, attempt)` entry per attempt actually
issued.  (The `asyncio.sleep` after the try block in the source is dead code:
both branches of the try either return or raise before reaching it.) -/
def make_request (session : Bool) (env : String → Nat → ReqOutcome) (endpoint : String) :
    Except PyErr Json × List (String × Nat) :=
  if session then
    let core := retryCore (env endpoint) 2 0
    (core.1, (List.range core.2.1).map fun i => (endpoint, i))
  else
    (.error (.runtimeError "Client session not initialized"), [])

/-- The backoff sleeps taken by `_make_request` for a given endpoint. -/
def make_request_waits (env : String → Nat → ReqOutcome) (endpoint : String) : List Nat :=
  (retryCore (env endpoint) 2 0).2.2

/-- The categories endpoint used by `fetch_categories`. -/
def catsEndpoint : String := "/api/kyt/v2/categories"

/-- The list comprehension
`[cat.get("categoryName", "") for cat in result["categories"] if cat.get("categoryName")]`:
keeps the `categoryName` value of every descriptor whose value is truthy;
a non-dict descriptor raises `AttributeError` (caught by the enclosing
`except` in `fetch_categories`). -/
def extractNames : List Json → Except PyErr (List Json)
  | [] => .ok []
  | c :: rest =>
    match c with
    | .obj fs =>
      (match extractNames rest with
       | .error e => .error e
       | .ok tail =>
         match fs.lookup "categoryName" with
         | some v => if v.truthy then .ok (v :: tail) else .ok tail
         | none => .ok tail)
    | _ => .error (.attributeError "no attribute get")

/-- Python `sorted` over the extracted names.  The wire contract types
`categoryName` as a string; a list containing a non-string value is modelled
as the `TypeError` that `sorted` raises on unorderable mixed types. -/
def pySortedNames (xs : List Json) : Except PyErr (List String) :=
  match allStrings xs with
  | some ss => .ok (ss.insertionSort (· ≤ ·))
  | none => .error (.typeError "unorderable types in sorted")
where
  allStrings : List Json → Option (List String)
    | [] => some []
    | .str s :: rest => (allStrings rest).map (s :: ·)
    | _ => none

/-- The parsing/validation stage of `fetch_categories` applied to the decoded
response: requires a dict with a `"categories"` list, extracts truthy names,
rejects an empty extraction, and sorts. -/
def parseCategoriesPayload (j : Json) : Except PyErr (List String) :=
  match j with
  | .obj fields =>
    match fields.lookup "categories" with
    | some (.arr cats) =>
      (match extractNames cats with
       | .error e => .error e
       | .ok names =>
         if names.isEmpty then .error (.valueError "No categories returned from API")
         else pySortedNames names)
    | some _ => .error (.typeError "not iterable")
    | none => .error (.valueError "Unexpected categories API response format")
  | _ => .error (.valueError "Unexpected categories API response format")

/-- `fetch_categories()`.  `cached` is the `self._categories` attribute on
entry; the returned triple is (result, `self._categories` on exit, request
log).  On a cache hit the function returns without touching the network.  Any
failure inside the try block (transport or parse) is wrapped into the
`ValueError("Cannot proceed without categories from API: ...")` re-raise. -/
def taxonomyFailureMsg (e : PyErr) : String :=
  "Cannot proceed without categories from API: " ++ pyStr e

def fetch_categories (session : Bool) (cached : Option (List String))
    (env : String → Nat → ReqOutcome) :
    Except PyErr (List String) × Option (List String) × List (String × Nat) :=
  match cached with
  | some cats => (.ok cats, some cats, [])
  | none =>
    match make_request session env catsEndpoint with
    | (.error e, lg) => (.error (.valueError (taxonomyFailureMsg e)), none, lg)
    | (.ok j, lg) =>
      match parseCategoriesPayload j with
      | .ok cats => (.ok cats, some cats, lg)
      | .error e => (.error (.valueError (taxonomyFailureMsg e)), none, lg)

/-- The per-address result dictionary.  A success result is
`{"address", "status": "success", "row_data", "raw_response"}`; an error
result is `{"address", "status": "error", "error", "row_data"}` — both shapes
are covered by one record with `Option` fields. -/
structure ScreeningResult where
  address : String
  status : String
  error : Option String
  row_data : List (String × Option Json)
  raw_response : Option Json

/-- `_format_error_result(address, error_message)`. -/
def format_error_result (address errorMessage : String) : ScreeningResult :=
  { address := address
    status := "error"
    error := some errorMessage
    row_data :=
      [("address", some (.str address)),
       ("screenStatus", some (.str errorMessage)),
       ("risk", some (.str "")),
       ("riskReason", some (.str "")),
       ("category", some (.str "")),
       ("name", some (.str ""))]
    raw_response := none }

/-- Python `dictValue == "literal"`: true exactly when the value is that
string (comparison with a missing key's `None` or any non-string is `False`,
never an error). -/
def optEqStr : Option Json → String → Bool
  | some (.str t), s => t == s
  | _, _ => false

/-- The inner loop of `_format_screening_result` when
`include_indirect_exposure` is true: walk the whole exposure list, recording
the `value` of every entry for this category tagged `direct` resp.
`indirect` (later entries overwrite earlier ones); a non-dict entry raises
`AttributeError`. -/
def scanDirectIndirect (cat : String) :
    List Json → Option Json × Option Json → Except PyErr (Option Json × Option Json)
  | [], acc => .ok acc
  | e :: rest, acc =>
    match e with
    | .obj fs =>
      if optEqStr (fs.lookup "category") cat then
        if optEqStr (fs.lookup "exposureType") "direct" then
          scanDirectIndirect cat rest (fs.lookup "value", acc.2)
        else if optEqStr (fs.lookup "exposureType") "indirect" then
          scanDirectIndirect cat rest (acc.1, fs.lookup "value")
        else scanDirectIndirect cat rest acc
      else scanDirectIndirect cat rest acc
    | _ => .error (.attributeError "no attribute get")

/-- The inner loop of `_format_screening_result` when
`include_indirect_exposure` is false: return the `value` of the first entry
for this category whose `exposureType` is not `"indirect"` (the loop breaks
there), `none` if no entry matches. -/
def scanFirstNonIndirect (cat : String) : List Json → Except PyErr (Option Json)
  | [] => .ok none
  | e :: rest =>
    match e with
    | .obj fs =>
      if optEqStr (fs.lookup "category") cat &&
          !(optEqStr (fs.lookup "exposureType") "indirect") then
        .ok (fs.lookup "value")
      else scanFirstNonIndirect cat rest
    | _ => .error (.attributeError "no attribute get")

/-- The `for cat in categories` loop of `_format_screening_result`: emits the
per-category row fields, in taxonomy order, two fields per category when
indirect exposure is included and one otherwise. -/
def buildCatFields (includeIndirect : Bool) (exposures : List Json) :
    List String → Except PyErr (List (String × Option Json))
  | [] => .ok []
  | cat :: rest =>
    if includeIndirect then
      match scanDirectIndirect cat exposures (none, none) with
      | .error e => .error e
      | .ok di =>
        match buildCatFields includeIndirect exposures rest with
        | .error e => .error e
        | .ok tail => .ok ((cat ++ "_direct", di.1) :: (cat ++ "_indirect", di.2) :: tail)
    else
      match scanFirstNonIndirect cat exposures with
      | .error e => .error e
      | .ok v =>
        match buildCatFields includeIndirect exposures rest with
        | .error e => .error e
        | .ok tail => .ok ((cat, v) :: tail)

/-- `_format_screening_result(address, api_result)`.  `cached` is
`self._categories` (the guard at the top raises `ValueError` when it is still
`None`); any `AttributeError`/`TypeError` a malformed payload provokes in the
Python code is propagated as the corresponding `PyErr`. -/
def format_screening_result (cached : Option (List String)) (includeIndirect : Bool)
    (address : String) (api_result : Json) : Except PyErr ScreeningResult :=
  match cached with
  | none => .error (.valueError "Categories not initialized. Call fetch_categories() first.")
  | some categories =>
    match api_result with
    | .obj fields =>
      match
        (match fields.lookup "status" with
         | none => .ok "complete"
         | some (.str s) => .ok s.toLower
         | some _ => .error (.attributeError "no attribute lower") :
          Except PyErr String) with
      | .error e => .error e
      | .ok screenStatus =>
        let risk := (fields.lookup "risk").getD (.str "")
        let riskReason := (fields.lookup "riskReason").getD (.str "")
        match
          (match fields.lookup "cluster" with
           | none => .ok (.str "", .str "")
           | some c =>
             if c.truthy then
               match c with
               | .obj cf =>
                 .ok ((cf.lookup "category").getD (.str ""), (cf.lookup "name").getD (.str ""))
               | _ => .error (.attributeError "no attribute get")
             else .ok (.str "", .str "") : Except PyErr (Json × Json)) with
        | .error e => .error e
        | .ok cn =>
          match
            (match fields.lookup "exposures" with
             | none => .ok []
             | some (.arr xs) => .ok xs
             | some _ => .error (.typeError "not iterable") : Except PyErr (List Json)) with
          | .error e => .error e
          | .ok exposures =>
            match buildCatFields includeIndirect exposures categories with
            | .error e => .error e
            | .ok catFields =>
              .ok { address := address
                    status := "success"
                    error := none
                    row_data :=
                      ("address", some (.str address)) ::
                      ("screenStatus", some (.str screenStatus)) ::
                      ("risk", some risk) ::
                      ("riskReason", some riskReason) ::
                      ("category", some cn.1) ::
                      ("name", some cn.2) :: catFields
                    raw_response := some api_result }
    | _ => .error (.attributeError "no attribute get")

/-- The error-message simplification in `screen_address`'s except block:
`f"{e.status} {e.message}"` for `ClientResponseError`, `str(e)` otherwise. -/
def screenErrorMessage : PyErr → String
  | .clientResponseError c m => toString c ++ " " ++ m
  | e => pyStr e

/-- The per-address risk endpoint `f"/api/risk/v2/entities/{address}"`. -/
def entityEndpoint (address : String) : String :=
  "/api/risk/v2/entities/" ++ address

/-- `screen_address(address)`: one gated request plus normalization; every
exception (transport, HTTP status, or normalization) is caught and turned
into an error result.  Returns the result and the request log. -/
def screen_address (cfg : Config) (cached : Option (List String)) (session : Bool)
    (env : String → Nat → ReqOutcome) (address : String) :
    ScreeningResult × List (String × Nat) :=
  match make_request session env (entityEndpoint address) with
  | (.ok j, lg) =>
    match format_screening_result cached cfg.include_indirect_exposure address j with
    | .ok res => (res, lg)
    | .error e => (format_error_result address (screenErrorMessage e), lg)
  | (.error e, lg) => (format_error_result address (screenErrorMessage e), lg)

/-- `asyncio.gather` with `return_exceptions=True`: tasks finish in some
completion order, and each finished task's value is stored at the task's own
index.  `order` is the completion order (indices of tasks as they finish);
a slot is `none` until its task finishes. -/
def gatherSlots (n : Nat) (f : Nat → α) (order : List Nat) : List (Option α) :=
  order.foldl (fun acc i => acc.set i (some (f i))) (List.replicate n none)

/-- `screen_addresses(addresses)`: resolve the taxonomy once (propagating its
failure), fan one `screen_address` task out per input address through the
semaphore, gather positionally, and convert any task-level exception into an
error result for the address at the same index.  In this embedding a task is
the deterministic `screen_address` value, so the task outcome is always `ok`;
the exception branch of the conversion loop is kept for faithfulness.  The
`"pending"` fallback is unreachable for any completion order that runs every
task, which the theorems hypothesize (`asyncio.gather` resolves every slot).
Returns (result, `self._categories` on exit, request log in issue order). -/
def screen_addresses (cfg : Config) (session : Bool) (cached : Option (List String))
    (env : String → Nat → ReqOutcome) (addresses : List String) (order : List Nat) :
    Except PyErr (List ScreeningResult) × Option (List String) × List (String × Nat) :=
  match fetch_categories session cached env with
  | (.error e, st, log) => (.error e, st, log)
  | (.ok _, st, log) =>
    let n := addresses.length
    let task : Nat → Except PyErr ScreeningResult × List (String × Nat) := fun i =>
      let r := screen_address cfg st session env (addresses.getD i "")
      (.ok r.1, r.2)
    let slots := gatherSlots n (fun i => (task i).1) order
    let results := (List.range n).map fun i =>
      match slots.getD i none with
      | some (.ok r) => r
      | some (.error e) => format_error_result (addresses.getD i "") (pyStr e)
      | none => format_error_result (addresses.getD i "") "pending"
    let taskLogs := order.foldl (fun acc i => if i < n then acc ++ (task i).2 else acc) []
    (.ok results, st, log ++ taskLogs)

/-- `list(dict.fromkeys(xs))`, the deduplication idiom shared by
`CSVProcessor.read_addresses_from_csv` and
`screen_addresses_from_dataframe`: keep the first occurrence of each
element, in input order.  `seen` is the set of keys already inserted. -/
def dedupFirstAux (seen : List String) : List String → List String
  | [] => []
  | x :: xs =>
    if x ∈ seen then dedupFirstAux seen xs
    else x :: dedupFirstAux (x :: seen) xs

/-- `list(dict.fromkeys(xs))` applied to the raw address list. -/
def dedupFirst (xs : List String) : List String := dedupFirstAux [] xs

/-- The spec's wording of deduplication, stated independently of the source
for the refinement comparison: "each unique address exactly once, in order of
first occurrence" — emit the head, then recurse on the tail with all later
copies of the head removed. -/
def specFirstOccurrenceOrder : List String → List String
  | [] => []
  | x :: xs => x :: specFirstOccurrenceOrder (xs.filter (fun y => decide (y ≠ x)))
  termination_by l => l.length
  decreasing_by
    simp only [List.length_cons]
    exact Nat.lt_succ_of_le (List.length_filter_le _ _)

/-- Phase of one per-address task with respect to the
`asyncio.Semaphore(config.max_concurrent_requests)` in `screen_addresses`:
not yet admitted, holding a slot (its request is in flight), or finished
(slot released). -/
inductive TaskPhase where
  | pending
  | inFlight
  | done
deriving DecidableEq, Repr

/-- Number of tasks currently holding a semaphore slot, i.e. per-address
requests in flight. -/
def inFlightCount (phases : List TaskPhase) : Nat :=
  phases.countP (fun p => p == TaskPhase.inFlight)

/-- One scheduler step of the batch under the semaphore of capacity `N`
(`async with semaphore` in `screen_with_semaphore`): a pending task may
acquire a slot only while fewer than `N` are held (otherwise its acquire
blocks); a task holding a slot may finish and release it. -/
inductive SemaphoreStep (N : Nat) : List TaskPhase → List TaskPhase → Prop where
  | acquire (phases : List TaskPhase) (i : Nat) (hi : i < phases.length)
      (hp : phases.get ⟨i, hi⟩ = .pending)
      (hcap : inFlightCount phases < N) :
      SemaphoreStep N phases (phases.set i .inFlight)
  | release (phases : List TaskPhase) (i : Nat) (hi : i < phases.length)
      (hp : phases.get ⟨i, hi⟩ = .inFlight) :
      SemaphoreStep N phases (phases.set i .done)

/-- States of the batch reachable from the start of a `screen_addresses` run
over `M` addresses (all tasks created, none admitted yet). -/
inductive SemaphoreReachable (N M : Nat) : List TaskPhase → Prop where
  | init : SemaphoreReachable N M (List.replicate M .pending)
  | step (s t : List TaskPhase) (hs : SemaphoreReachable N M s)
      (hstep : SemaphoreStep N s t) : SemaphoreReachable N M t

/-! ### Test fixtures (concrete configurations and transport environments) -/

/-- A configuration with the dataclass defaults. -/
def cfgTest : Config := { chainalysis_api_key := "test-key" }

/-- Transport where every attempt returns 200 with an empty JSON object. -/
def envEntitySuccess : String → Nat → ReqOutcome := fun _ _ => .success (Json.obj [])

/-- Transport where every attempt fails with HTTP 404. -/
def envEntity404 : String → Nat → ReqOutcome := fun _ _ => .httpStatus 404 "Not Found"

/-- Transport whose first attempt on any endpoint fails with HTTP 404 and
whose later attempts succeed. -/
def envEntity404Once : String → Nat → ReqOutcome := fun _ a =>
  if a == 0 then .httpStatus 404 "Not Found" else .success (Json.obj [])

/-- Transport answering every request with a one-element category taxonomy. -/
def envCatsTaxonomy : String → Nat → ReqOutcome := fun _ _ =>
  .success (Json.obj [("categories",
    Json.arr [Json.obj [("categoryName", Json.str "sanctions")]])])

/-- Transport answering with two category descriptors carrying the same name. -/
def envCatsDup : String → Nat → ReqOutcome := fun _ _ =>
  .success (Json.obj [("categories",
    Json.arr [Json.obj [("categoryName", Json.str "aaa")],
              Json.obj [("categoryName", Json.str "aaa")]])])

/-- Transport where every attempt fails at the network level. -/
def envCatsFail : String → Nat → ReqOutcome := fun _ _ => .netError "boom"

/-- Transport failing transiently twice (network error, then HTTP 429) and
succeeding on the third attempt. -/
def envTransientTwice : String → Nat → ReqOutcome := fun _ a =>
  match a with
  | 0 => .netError "connection reset"
  | 1 => .httpStatus 429 "Too Many Requests"
  | _ => .success (Json.obj [])

/-! ### C10: duplicate exposure entries -/

/-- An exposure entry for category `"sanctions"`, type `"direct"`, value `v`. -/
def sanctionsDirectEntry (v : Int) : Json :=
  Json.obj [("category", Json.str "sanctions"),
            ("exposureType", Json.str "direct"),
            ("value", Json.num v)]

/-- A payload whose exposure list holds two entries with the same category
and the same exposure type, values `v1` then `v2`. -/
def dupExposurePayload (v1 v2 : Int) : Json :=
  Json.obj [("exposures", Json.arr [sanctionsDirectEntry v1, sanctionsDirectEntry v2])]

/-- C10: when several exposure entries share the same category and the same
exposureType, normalization with include_indirect_exposure true records the
value of the last matching entry (the scan does not stop at the first match),
while with include_indirect_exposure false it records the value of the first
entry for the category whose exposureType is not "indirect". -/
theorem C10_duplicate_exposure_entries (v1 v2 : Int) :
    (format_screening_result (some ["sanctions"]) true "a" (dupExposurePayload v1 v2)).map
        (fun r => r.row_data.lookup "sanctions_direct") = .ok (some (some (.num v2))) ∧
    (format_screening_result (some ["sanctions"]) false "a" (dupExposurePayload v1 v2)).map
        (fun r => r.row_data.lookup "sanctions") = .ok (some (some (.num v1))) := by
  exact ⟨rfl, rfl⟩

/-- Witness for C10 at values 1 and 2. -/
theorem C10_witness :
    (format_screening_result (some ["sanctions"]) true "a" (dupExposurePayload 1 2)).map
        (fun r => r.row_data.lookup "sanctions_direct") = .ok (some (some (.num 2))) :=
  (C10_duplicate_exposure_entries 1 2).1

/-! ### C6: normalization of status and the concrete exposure example -/

/-- The payload of the spec's normalization example: one direct sanctions
exposure of value 5 and nothing else. -/
def c6payload : Json :=
  Json.obj [("exposures", Json.arr [sanctionsDirectEntry 5])]

/-- The normalized result the example must produce: taxonomy
`["mixing", "sanctions"]` (the sorted order `fetch_categories` stores),
status defaulted to `"complete"`, `sanctions_direct = 5`, every other
taxonomy field present with the explicit absent value. -/
def c6expected : ScreeningResult :=
  { address := "addr"
    status := "success"
    error := none
    row_data :=
      [("address", some (.str "addr")),
       ("screenStatus", some (.str "complete")),
       ("risk", some (.str "")),
       ("riskReason", some (.str "")),
       ("category", some (.str "")),
       ("name", some (.str "")),
       ("mixing_direct", none),
       ("mixing_indirect", none),
       ("sanctions_direct", some (.num 5)),
       ("sanctions_indirect", none)]
    raw_response := some c6payload }

/-- C6: normalization lower-cases the payload status, defaults it to
"complete" when absent, and on the spec's example payload with taxonomy
{"mixing","sanctions"} and include_indirect true produces sanctions_direct=5
with all other category fields present and absent-valued. -/
theorem C6_normalization_status_and_example :
    (∀ (fields : List (String × Json)) (s : String) (r : ScreeningResult)
        (cached : Option (List String)) (ii : Bool) (a : String),
        fields.lookup "status" = some (.str s) →
        format_screening_result cached ii a (.obj fields) = .ok r →
        r.row_data.lookup "screenStatus" = some (some (.str s.toLower))) ∧
    (∀ (fields : List (String × Json)) (r : ScreeningResult)
        (cached : Option (List String)) (ii : Bool) (a : String),
        fields.lookup "status" = none →
        format_screening_result cached ii a (.obj fields) = .ok r →
        r.row_data.lookup "screenStatus" = some (some (.str "complete"))) ∧
    format_screening_result (some ["mixing", "sanctions"]) true "addr" c6payload =
      .ok c6expected := by
  refine ⟨?_, ?_, rfl⟩
  · intro fields s r cached ii a hs h
    cases cached with
    | none => simp [format_screening_result] at h
    | some categories =>
      unfold format_screening_result at h
      dsimp only at h
      rw [hs] at h
      dsimp only at h
      split at h
      · exact absurd h (by simp)
      · split at h
        · exact absurd h (by simp)
        · split at h
          · exact absurd h (by simp)
          · injection h with h2
            subst h2
            rfl
  · intro fields r cached ii a hs h
    cases cached with
    | none => simp [format_screening_result] at h
    | some categories =>
      unfold format_screening_result at h
      dsimp only at h
      rw [hs] at h
      dsimp only at h
      split at h
      · exact absurd h (by simp)
      · split at h
        · exact absurd h (by simp)
        · split at h
          · exact absurd h (by simp)
          · injection h with h2
            subst h2
            rfl

/-- The result normalizing a payload whose status field is the string
`"COMPLETE"`, under taxonomy `["x"]` with indirect exposure included. -/
def c6witnessResult : ScreeningResult :=
  { address := "a"
    status := "success"
    error := none
    row_data :=
      [("address", some (.str "a")),
       ("screenStatus", some (.str ("COMPLETE".toLower))),
       ("risk", some (.str "")),
       ("riskReason", some (.str "")),
       ("category", some (.str "")),
       ("name", some (.str "")),
       ("x_direct", none),
       ("x_indirect", none)]
    raw_response := some (Json.obj [("status", Json.str "COMPLETE")]) }

/-- Witness for C6 at a concrete payload carrying status "COMPLETE". -/
theorem C6_witness :
    c6witnessResult.row_data.lookup "screenStatus" =
      some (some (Json.str ("COMPLETE".toLower))) :=
  C6_normalization_status_and_example.1 [("status", Json.str "COMPLETE")] "COMPLETE"
    c6witnessResult (some ["x"]) true "a" rfl (by rfl)

/-! ### C2: failures become error results; shape of the error row -/

/-- Counterexample to the claim that an error result's `row_data` mirrors the
success shape: with taxonomy `["sanctions"]` a success row carries the two
per-category exposure fields, while the error row produced for the same
address under a failing transport carries only the six base fields. -/
theorem C2_counterexample :
    ((screen_address cfgTest (some ["sanctions"]) true envEntity404 "a").1.row_data.map
        Prod.fst) ≠
    ((screen_address cfgTest (some ["sanctions"]) true envEntitySuccess "a").1.row_data.map
        Prod.fst) := by
  decide

/-- C2 (amended): every failure of the underlying request and every failure
of normalization yields the error Screening Result of `_format_error_result`
for that address instead of raising; that error result is tagged "error",
carries the message, and its `row_data` holds exactly the six base columns of
the success shape (address, the error message in screenStatus, and empty
strings), omitting the per-category exposure columns. -/
theorem C2_error_results_are_data (cfg : Config) (cached : Option (List String))
    (session : Bool) (env : String → Nat → ReqOutcome) (address : String) :
    (∀ e, (make_request session env (entityEndpoint address)).1 = .error e →
        (screen_address cfg cached session env address).1 =
          format_error_result address (screenErrorMessage e)) ∧
    (∀ j e, (make_request session env (entityEndpoint address)).1 = .ok j →
        format_screening_result cached cfg.include_indirect_exposure address j = .error e →
        (screen_address cfg cached session env address).1 =
          format_error_result address (screenErrorMessage e)) ∧
    (∀ a m, (format_error_result a m).status = "error" ∧
        (format_error_result a m).error = some m ∧
        (format_error_result a m).address = a ∧
        (format_error_result a m).row_data.map Prod.fst =
          ["address", "screenStatus", "risk", "riskReason", "category", "name"] ∧
        (format_error_result a m).row_data.lookup "screenStatus" = some (some (.str m))) := by
  refine ⟨?_, ?_, ?_⟩
  · intro e h
    unfold screen_address
    rcases hmr : make_request session env (entityEndpoint address) with ⟨r, lg⟩
    rw [hmr] at h
    dsimp only at h
    subst h
    rfl
  · intro j e hok hfmt
    unfold screen_address
    rcases hmr : make_request session env (entityEndpoint address) with ⟨r, lg⟩
    rw [hmr] at hok
    dsimp only at hok
    subst hok
    dsimp only
    rw [hfmt]
  · intro a m
    exact ⟨rfl, rfl, rfl, rfl, rfl⟩

/-- Witness for C2: a transport failing with 404 on every attempt. -/
theorem C2_witness :
    (screen_address cfgTest (some ["sanctions"]) true envEntity404 "a").1 =
      format_error_result "a" (screenErrorMessage (.clientResponseError 404 "Not Found")) :=
  (C2_error_results_are_data cfgTest (some ["sanctions"]) true envEntity404 "a").1
    (.clientResponseError 404 "Not Found") (by rfl)

/-! ### C4: retry policy of `_make_request` -/

lemma retryCore_ok (env : Nat → ReqOutcome) (rem attempt : Nat) (j : Json)
    (h : outcomeExcept (env attempt) = .ok j) :
    retryCore env rem attempt = (.ok j, attempt + 1, []) := by
  unfold retryCore
  rw [h]

lemma retryCore_stop (env : Nat → ReqOutcome) (attempt : Nat) (e : PyErr)
    (h : outcomeExcept (env attempt) = .error e) :
    retryCore env 0 attempt = (.error e, attempt + 1, []) := by
  unfold retryCore
  rw [h]

lemma retryCore_retry (env : Nat → ReqOutcome) (r attempt : Nat) (e : PyErr)
    (h : outcomeExcept (env attempt) = .error e) (hc : e.isClientError = true) :
    retryCore env (r + 1) attempt =
      ((retryCore env r (attempt + 1)).1, (retryCore env r (attempt + 1)).2.1,
        waitExponential 1 1 10 (attempt + 1) :: (retryCore env r (attempt + 1)).2.2) := by
  conv_lhs => rw [retryCore]
  rw [h]
  simp only [hc, if_true]

lemma retryCore_noretry (env : Nat → ReqOutcome) (r attempt : Nat) (e : PyErr)
    (h : outcomeExcept (env attempt) = .error e) (hc : e.isClientError = false) :
    retryCore env (r + 1) attempt = (.error e, attempt + 1, []) := by
  unfold retryCore
  rw [h]
  simp only [hc, Bool.false_eq_true, if_false]

/-- Counterexample to the claim that a 4xx status other than 429 is not
retried: a transport whose first attempt returns HTTP 404 and whose second
succeeds yields a success after two attempts — the 404 was retried rather
than propagated immediately (`ClientResponseError` is an `aiohttp.ClientError`,
which the tenacity predicate retries). -/
theorem C4_counterexample :
    (make_request true envEntity404Once "/e").1 = .ok (Json.obj []) ∧
    (make_request true envEntity404Once "/e").2 = [("/e", 0), ("/e", 1)] := by
  exact ⟨rfl, rfl⟩

/-- C4 (amended): `_make_request` retries every `aiohttp.ClientError`-class
failure — network-level errors and HTTP error statuses of any class alike,
including 4xx other than 429 — up to 3 attempts (the hardcoded tenacity stop,
equal to the default `max_retries` configuration value) with exponential
backoff of 1s then 2s (doubling, capped at 10s); a failure that is not an
`aiohttp.ClientError` (e.g. a JSON decode error of a 200 response)
propagates immediately without retry; a request failing transiently twice and
succeeding on the third attempt yields that success. -/
theorem C4_retry_policy (env : String → Nat → ReqOutcome) (endpoint : String) :
    (∀ e0 e1 j,
        outcomeExcept (env endpoint 0) = .error e0 → e0.isClientError = true →
        outcomeExcept (env endpoint 1) = .error e1 → e1.isClientError = true →
        env endpoint 2 = .success j →
        make_request true env endpoint = (.ok j, [(endpoint, 0), (endpoint, 1), (endpoint, 2)]) ∧
        make_request_waits env endpoint =
          [waitExponential 1 1 10 1, waitExponential 1 1 10 2] ∧
        waitExponential 1 1 10 1 = 1 ∧ waitExponential 1 1 10 2 = 2) ∧
    (∀ e0, outcomeExcept (env endpoint 0) = .error e0 → e0.isClientError = false →
        make_request true env endpoint = (.error e0, [(endpoint, 0)])) ∧
    (∀ e0 e1 e2,
        outcomeExcept (env endpoint 0) = .error e0 → e0.isClientError = true →
        outcomeExcept (env endpoint 1) = .error e1 → e1.isClientError = true →
        outcomeExcept (env endpoint 2) = .error e2 →
        make_request true env endpoint =
          (.error e2, [(endpoint, 0), (endpoint, 1), (endpoint, 2)])) ∧
    (∀ k, 1 ≤ k → waitExponential 1 1 10 (k + 1) = min (2 * waitExponential 1 1 10 k) 10) := by
  refine ⟨?_, ?_, ?_, ?_⟩
  · intro e0 e1 j h0 hc0 h1 hc1 hs
    have hok : outcomeExcept (env endpoint 2) = .ok j := by rw [hs]; rfl
    have hcore : retryCore (env endpoint) 2 0 =
        (.ok j, 3, [waitExponential 1 1 10 1, waitExponential 1 1 10 2]) := by
      have s2 : (2 : Nat) = 1 + 1 := rfl
      rw [s2, retryCore_retry (env endpoint) 1 0 e0 h0 hc0]
      have s1 : (1 : Nat) = 0 + 1 := rfl
      rw [s1, retryCore_retry (env endpoint) 0 (0 + 1) e1 h1 hc1]
      rw [retryCore_ok (env endpoint) 0 (0 + 1 + 1) j hok]
    refine ⟨?_, ?_, by decide, by decide⟩
    · unfold make_request
      rw [if_pos rfl, hcore]
      rfl
    · unfold make_request_waits
      rw [hcore]
  · intro e0 h0 hc0
    have hcore : retryCore (env endpoint) 2 0 = (.error e0, 1, []) := by
      have s2 : (2 : Nat) = 1 + 1 := rfl
      rw [s2, retryCore_noretry (env endpoint) 1 0 e0 h0 hc0]
    unfold make_request
    rw [if_pos rfl, hcore]
    rfl
  · intro e0 e1 e2 h0 hc0 h1 hc1 h2
    have hcore : retryCore (env endpoint) 2 0 =
        (.error e2, 3, [waitExponential 1 1 10 1, waitExponential 1 1 10 2]) := by
      have s2 : (2 : Nat) = 1 + 1 := rfl
      rw [s2, retryCore_retry (env endpoint) 1 0 e0 h0 hc0]
      have s1 : (1 : Nat) = 0 + 1 := rfl
      rw [s1, retryCore_retry (env endpoint) 0 (0 + 1) e1 h1 hc1]
      rw [retryCore_stop (env endpoint) (0 + 1 + 1) e2 h2]
    unfold make_request
    rw [if_pos rfl, hcore]
    rfl
  · intro k hk
    have hx : (1 : Nat) ≤ 2 ^ (k - 1) := Nat.one_le_pow _ _ (by norm_num)
    have hpow : 2 ^ (k + 1 - 1) = 2 * 2 ^ (k - 1) := by
      have hk1 : k - 1 + 1 = k := by omega
      calc 2 ^ (k + 1 - 1) = 2 ^ k := by simp
        _ = 2 ^ (k - 1 + 1) := by rw [hk1]
        _ = 2 ^ (k - 1) * 2 := pow_succ 2 (k - 1)
        _ = 2 * 2 ^ (k - 1) := by ring
    simp only [waitExponential, one_mul, hpow]
    omega

/-- Witness for C4: a transport failing with a network error, then HTTP 429,
then succeeding. -/
theorem C4_witness :
    make_request true envTransientTwice "/x" =
      (.ok (Json.obj []), [("/x", 0), ("/x", 1), ("/x", 2)]) ∧
    make_request_waits envTransientTwice "/x" = [1, 2] := by
  have h := (C4_retry_policy envTransientTwice "/x").1
    (.clientError "connection reset") (.clientResponseError 429 "Too Many Requests")
    (Json.obj []) rfl rfl rfl rfl rfl
  exact ⟨h.1, by rw [h.2.1]; decide⟩

/-! ### C3 and C8: taxonomy resolution -/

lemma make_request_log (session : Bool) (env : String → Nat → ReqOutcome) (ep : String) :
    ∀ p ∈ (make_request session env ep).2, p.1 = ep := by
  intro p hp
  unfold make_request at hp
  cases session with
  | false => simp at hp
  | true =>
    simp only [if_true] at hp
    simp only [List.mem_map] at hp
    obtain ⟨i, _, hi⟩ := hp
    rw [← hi]

lemma fetch_categories_log (session : Bool) (cached : Option (List String))
    (env : String → Nat → ReqOutcome) :
    ∀ p ∈ (fetch_categories session cached env).2.2, p.1 = catsEndpoint := by
  intro p hp
  unfold fetch_categories at hp
  cases cached with
  | some cats => simp at hp
  | none =>
    rcases hmr : make_request session env catsEndpoint with ⟨r, lg⟩
    rw [hmr] at hp
    have hlg : ∀ q ∈ lg, q.1 = catsEndpoint := by
      intro q hq
      exact make_request_log session env catsEndpoint q (by rw [hmr]; exact hq)
    cases r with
    | error e => exact hlg p hp
    | ok j =>
      dsimp only at hp
      split at hp
      · exact hlg p hp
      · exact hlg p hp

lemma fetch_categories_error_shape (session : Bool) (cached : Option (List String))
    (env : String → Nat → ReqOutcome) (e : PyErr) (st : Option (List String))
    (log : List (String × Nat))
    (h : fetch_categories session cached env = (.error e, st, log)) :
    ∃ m, e = PyErr.valueError m := by
  unfold fetch_categories at h
  cases cached with
  | some cats => simp at h
  | none =>
    rcases hmr : make_request session env catsEndpoint with ⟨r, lg⟩
    rw [hmr] at h
    cases r with
    | error e2 =>
      dsimp only at h
      exact ⟨taxonomyFailureMsg e2, by simp_all⟩
    | ok j =>
      dsimp only at h
      split at h
      · simp at h
      next e2 heq =>
        exact ⟨taxonomyFailureMsg e2, by simp_all⟩

/-- C3: if taxonomy resolution fails (`fetch_categories` raises, always as the
taxonomy `ValueError`), `screen_addresses` propagates that very failure before
issuing any per-address request — the whole request log holds only categories
endpoint entries — and produces no address results. -/
theorem C3_taxonomy_failure_batch_fatal (cfg : Config) (session : Bool)
    (cached : Option (List String)) (env : String → Nat → ReqOutcome)
    (addresses : List String) (order : List Nat) (e : PyErr)
    (st : Option (List String)) (log : List (String × Nat))
    (h : fetch_categories session cached env = (.error e, st, log)) :
    screen_addresses cfg session cached env addresses order = (.error e, st, log) ∧
    (∀ p ∈ log, p.1 = catsEndpoint) ∧
    ∃ m, e = PyErr.valueError m := by
  refine ⟨?_, ?_, fetch_categories_error_shape session cached env e st log h⟩
  · unfold screen_addresses
    rw [h]
  · intro p hp
    exact fetch_categories_log session cached env p (by rw [h]; exact hp)

/-- Witness for C3: a transport that always fails at the network level. -/
theorem C3_witness :
    screen_addresses cfgTest true none envCatsFail ["a"] [0] =
      (.error (.valueError "Cannot proceed without categories from API: boom"), none,
       [(catsEndpoint, 0), (catsEndpoint, 1), (catsEndpoint, 2)]) :=
  (C3_taxonomy_failure_batch_fatal cfgTest true none envCatsFail ["a"] [0]
    (.valueError "Cannot proceed without categories from API: boom") none
    [(catsEndpoint, 0), (catsEndpoint, 1), (catsEndpoint, 2)] (by rfl)).1

lemma extractNames_truthy (xs : List Json) (names : List Json)
    (h : extractNames xs = .ok names) : ∀ v ∈ names, v.truthy = true := by
  induction xs generalizing names with
  | nil =>
    unfold extractNames at h
    injection h with h2
    subst h2
    intro v hv
    simp at hv
  | cons c rest ih =>
    unfold extractNames at h
    cases c with
    | obj fs =>
      dsimp only at h
      split at h
      · simp at h
      next tail htail =>
        split at h
        next v hv =>
          split at h
          next htr =>
            injection h with h2
            subst h2
            intro w hw
            rcases List.mem_cons.mp hw with h3 | h3
            · subst h3; exact htr
            · exact ih tail htail w h3
          · injection h with h2
            subst h2
            exact ih tail htail
        next =>
          injection h with h2
          subst h2
          exact ih tail htail
    | str s => exact absurd h (by simp)
    | num n => exact absurd h (by simp)
    | bool b => exact absurd h (by simp)
    | arr elems => exact absurd h (by simp)

lemma allStrings_mem (xs : List Json) (ss : List String)
    (h : pySortedNames.allStrings xs = some ss) : ∀ s ∈ ss, Json.str s ∈ xs := by
  induction xs generalizing ss with
  | nil =>
    unfold pySortedNames.allStrings at h
    injection h with h2
    subst h2
    intro s hs
    simp at hs
  | cons c rest ih =>
    unfold pySortedNames.allStrings at h
    cases c with
    | str t =>
      dsimp only at h
      rcases Option.map_eq_some'.mp h with ⟨tail, htail, hcons⟩
      subst hcons
      intro s hs
      rcases List.mem_cons.mp hs with h3 | h3
      · subst h3; exact List.mem_cons_self _ _
      · exact List.mem_cons_of_mem _ (ih tail htail s h3)
    | obj fs => exact absurd h (by simp)
    | num n => exact absurd h (by simp)
    | bool b => exact absurd h (by simp)
    | arr elems => exact absurd h (by simp)

lemma pySortedNames_ok (xs : List Json) (cats : List String)
    (h : pySortedNames xs = .ok cats) :
    cats.Sorted (· ≤ ·) ∧ ∀ s ∈ cats, Json.str s ∈ xs := by
  unfold pySortedNames at h
  split at h
  next ss hss =>
    injection h with h2
    subst h2
    refine ⟨List.sorted_insertionSort (· ≤ ·) ss, ?_⟩
    intro s hs
    exact allStrings_mem xs ss hss s ((List.mem_insertionSort (· ≤ ·)).mp hs)
  next => simp at h

lemma parseCategoriesPayload_ok (j : Json) (cats : List String)
    (h : parseCategoriesPayload j = .ok cats) :
    cats.Sorted (· ≤ ·) ∧ ∀ s ∈ cats, s ≠ "" := by
  unfold parseCategoriesPayload at h
  cases j with
  | obj fields =>
    dsimp only at h
    split at h
    next cs hcs =>
      split at h
      · simp at h
      next names hnames =>
        split at h
        · simp at h
        · have hsorted := pySortedNames_ok names cats h
          refine ⟨hsorted.1, ?_⟩
          intro s hs
          have htr := extractNames_truthy cs names hnames (Json.str s) (hsorted.2 s hs)
          simpa [Json.truthy] using htr
    next => simp at h
    next => simp at h
  | str s => simp at h
  | num n => simp at h
  | bool b => simp at h
  | arr elems => simp at h

lemma fetch_categories_none_ok (session : Bool) (env : String → Nat → ReqOutcome)
    (cats : List String) (st : Option (List String)) (log : List (String × Nat))
    (h : fetch_categories session none env = (.ok cats, st, log)) :
    st = some cats ∧ cats.Sorted (· ≤ ·) ∧ ∀ s ∈ cats, s ≠ "" := by
  unfold fetch_categories at h
  rcases hmr : make_request session env catsEndpoint with ⟨r, lg⟩
  rw [hmr] at h
  cases r with
  | error e => simp at h
  | ok j =>
    dsimp only at h
    split at h
    next cats2 hparse =>
      simp only [Prod.mk.injEq, Except.ok.injEq] at h
      obtain ⟨h1, h2, h3⟩ := h
      subst h1
      exact ⟨h2.symm, parseCategoriesPayload_ok j cats2 hparse⟩
    next => simp at h

/-- Counterexample to the uniqueness part of C8: two category descriptors
carrying the same name produce a taxonomy holding that name twice —
`fetch_categories` sorts but does not deduplicate. -/
theorem C8_counterexample :
    (fetch_categories true none envCatsDup).1 = .ok ["aaa", "aaa"] ∧
    ¬ (["aaa", "aaa"] : List String).Nodup := by
  constructor
  · have h1 : (fetch_categories true none envCatsDup).1 =
        .ok (List.insertionSort (· ≤ ·) ["aaa", "aaa"]) := by rfl
    rw [h1]
    have h2 : List.insertionSort (· ≤ ·) ["aaa", "aaa"] = ["aaa", "aaa"] := by
      simp [List.insertionSort, List.orderedInsert]
    rw [h2]
  · decide

/-- C8 (amended): `fetch_categories` is idempotent and memoized — a cached
taxonomy is returned unchanged with no network call, and a first successful
call caches exactly the returned list so every later call returns it with no
network call.  The returned list is sorted ascending and every name in it is
non-empty; names are not deduplicated, so they need not be unique. -/
theorem C8_fetch_categories_memoized_sorted (session : Bool)
    (env : String → Nat → ReqOutcome) :
    (∀ c, fetch_categories session (some c) env = (.ok c, some c, [])) ∧
    (∀ cats st log, fetch_categories session none env = (.ok cats, st, log) →
       st = some cats ∧
       fetch_categories session (some cats) env = (.ok cats, some cats, []) ∧
       cats.Sorted (· ≤ ·) ∧ ∀ s ∈ cats, s ≠ "") := by
  constructor
  · intro c
    rfl
  · intro cats st log h
    have hok := fetch_categories_none_ok session env cats st log h
    exact ⟨hok.1, rfl, hok.2.1, hok.2.2⟩

/-- Witness for C8: the one-category transport. -/
theorem C8_witness :
    fetch_categories true (some ["sanctions"]) envCatsTaxonomy =
      (.ok ["sanctions"], some ["sanctions"], []) ∧
    (["sanctions"] : List String).Sorted (· ≤ ·) := by
  have h := (C8_fetch_categories_memoized_sorted true envCatsTaxonomy).2
    ["sanctions"] (some ["sanctions"]) [(catsEndpoint, 0)] (by rfl)
  exact ⟨h.2.1, h.2.2.1⟩

/-! ### C5: the empty batch -/

lemma taskLogs_empty (g : Nat → List (String × Nat)) (order : List Nat) :
    order.foldl (fun acc i => if i < 0 then acc ++ g i else acc) [] = [] := by
  induction order with
  | nil => rfl
  | cons i rest ih =>
    rw [List.foldl_cons, if_neg (Nat.not_lt_zero i)]
    exact ih

/-- Counterexample to C5: on a fresh client (no cached taxonomy),
`screen_addresses([])` still issues the taxonomy network request — the empty
result comes with a non-empty request log. -/
theorem C5_counterexample :
    screen_addresses cfgTest true none envCatsTaxonomy [] [] =
      (.ok [], some ["sanctions"], [(catsEndpoint, 0)]) ∧
    ([(catsEndpoint, 0)] : List (String × Nat)) ≠ [] := by
  exact ⟨by rfl, by decide⟩

/-- C5 (amended): `screen_addresses([])` issues no per-address request: with
the taxonomy already cached it returns `[]` with no network call at all,
and in general whenever it returns a result for the empty list, that result
is `[]` and every logged request is the taxonomy call. -/
theorem C5_empty_batch (cfg : Config) (session : Bool) (cached : Option (List String))
    (env : String → Nat → ReqOutcome) (order : List Nat) :
    (∀ c, cached = some c →
        screen_addresses cfg session cached env [] order = (.ok [], some c, [])) ∧
    (∀ rs st log, screen_addresses cfg session cached env [] order = (.ok rs, st, log) →
        rs = [] ∧ ∀ p ∈ log, p.1 = catsEndpoint) := by
  constructor
  · intro c hc
    subst hc
    unfold screen_addresses
    have hf : fetch_categories session (some c) env = (.ok c, some c, []) := rfl
    rw [hf]
    dsimp only
    simp only [List.length_nil, List.range_zero, List.map_nil]
    rw [taskLogs_empty]
    rfl
  · intro rs st log h
    rcases hf : fetch_categories session cached env with ⟨fr, fst, flog⟩
    unfold screen_addresses at h
    rw [hf] at h
    cases fr with
    | error e => simp at h
    | ok cats0 =>
      dsimp only at h
      simp only [List.length_nil, List.range_zero, List.map_nil] at h
      rw [taskLogs_empty] at h
      simp only [Prod.mk.injEq, Except.ok.injEq] at h
      obtain ⟨h1, _, h3⟩ := h
      refine ⟨h1.symm ▸ rfl, ?_⟩
      intro p hp
      rw [← h3] at hp
      simp only [List.append_nil] at hp
      exact fetch_categories_log session cached env p (by rw [hf]; exact hp)

/-- Witness for C5: an already-resolved taxonomy and the empty address list. -/
theorem C5_witness :
    screen_addresses cfgTest true (some ["x"]) envEntitySuccess [] [] =
      (.ok [], some ["x"], []) :=
  (C5_empty_batch cfgTest true (some ["x"]) envEntitySuccess []).1 ["x"] rfl

/-! ### C7: deduplication keeps first occurrences -/

lemma dedupFirstAux_mem (xs : List String) : ∀ (seen : List String) (a : String),
    a ∈ dedupFirstAux seen xs ↔ a ∈ xs ∧ ¬ a ∈ seen := by
  induction xs with
  | nil =>
    intro seen a
    simp [dedupFirstAux]
  | cons x rest ih =>
    intro seen a
    unfold dedupFirstAux
    by_cases hx : x ∈ seen
    · rw [if_pos hx]
      rw [ih]
      constructor
      · rintro ⟨h1, h2⟩
        exact ⟨List.mem_cons_of_mem _ h1, h2⟩
      · rintro ⟨h1, h2⟩
        rcases List.mem_cons.mp h1 with h3 | h3
        · exact absurd (h3 ▸ hx) h2
        · exact ⟨h3, h2⟩
    · rw [if_neg hx]
      simp only [List.mem_cons, ih, List.mem_cons]
      constructor
      · rintro (h1 | ⟨h1, h2⟩)
        · subst h1
          exact ⟨Or.inl rfl, hx⟩
        · exact ⟨Or.inr h1, fun hs => h2 (Or.inr hs)⟩
      · rintro ⟨h1 | h1, h2⟩
        · exact Or.inl h1
        · by_cases hax : a = x
          · exact Or.inl hax
          · exact Or.inr ⟨h1, fun hs => (hs.elim hax h2 : False)⟩

lemma dedupFirstAux_nodup (xs : List String) : ∀ seen, (dedupFirstAux seen xs).Nodup := by
  induction xs with
  | nil =>
    intro seen
    simp [dedupFirstAux]
  | cons x rest ih =>
    intro seen
    unfold dedupFirstAux
    by_cases hx : x ∈ seen
    · rw [if_pos hx]
      exact ih seen
    · rw [if_neg hx]
      refine List.nodup_cons.mpr ⟨?_, ih _⟩
      intro hmem
      exact ((dedupFirstAux_mem rest (x :: seen) x).mp hmem).2 (List.mem_cons_self x seen)

lemma dedupFirstAux_eq_spec (xs : List String) : ∀ seen,
    dedupFirstAux seen xs =
      specFirstOccurrenceOrder (xs.filter (fun y => decide (¬ y ∈ seen))) := by
  induction xs with
  | nil =>
    intro seen
    simp [dedupFirstAux, specFirstOccurrenceOrder]
  | cons x rest ih =>
    intro seen
    unfold dedupFirstAux
    by_cases hx : x ∈ seen
    · rw [if_pos hx]
      rw [ih seen]
      congr 1
      rw [List.filter_cons]
      simp [hx]
    · rw [if_neg hx]
      rw [ih (x :: seen)]
      have hfx : (x :: rest).filter (fun y => decide (¬ y ∈ seen)) =
          x :: rest.filter (fun y => decide (¬ y ∈ seen)) := by
        rw [List.filter_cons]
        simp [hx]
      rw [hfx]
      conv_rhs => rw [specFirstOccurrenceOrder]
      congr 1
      rw [List.filter_filter]
      congr 1
      apply List.filter_congr
      intro y _
      simp [List.mem_cons, not_or]

/-- C7: the deduplication idiom `list(dict.fromkeys(xs))` used for both CSV
and DataFrame inputs yields a list with no duplicates, containing exactly the
input's elements, equal to the spec's first-occurrence-order description,
with each input element counted exactly once. -/
theorem C7_dedup_first_occurrence (xs : List String) :
    (dedupFirst xs).Nodup ∧
    (∀ a, a ∈ dedupFirst xs ↔ a ∈ xs) ∧
    dedupFirst xs = specFirstOccurrenceOrder xs ∧
    (∀ a, a ∈ xs → (dedupFirst xs).count a = 1) := by
  have hnodup := dedupFirstAux_nodup xs []
  have hmem : ∀ a, a ∈ dedupFirst xs ↔ a ∈ xs := by
    intro a
    unfold dedupFirst
    rw [dedupFirstAux_mem]
    simp
  refine ⟨hnodup, hmem, ?_, ?_⟩
  · unfold dedupFirst
    rw [dedupFirstAux_eq_spec]
    congr 1
    simp
  · intro a ha
    exact List.count_eq_one_of_mem hnodup ((hmem a).mpr ha)

/-- Witness for C7 on a list with a duplicate. -/
theorem C7_witness : (dedupFirst ["a", "b", "a"]).count "a" = 1 :=
  (C7_dedup_first_occurrence ["a", "b", "a"]).2.2.2 "a" (by decide)

/-! ### C9: the concurrency bound -/

lemma countP_set_incr (p : TaskPhase → Bool) (l : List TaskPhase) :
    ∀ (i : Nat) (a : TaskPhase) (hi : i < l.length),
    p (l.get ⟨i, hi⟩) = false → p a = true →
    (l.set i a).countP p = l.countP p + 1 := by
  induction l with
  | nil =>
    intro i a hi
    simp at hi
  | cons x rest ih =>
    intro i a hi hold ha
    cases i with
    | zero =>
      simp only [List.set, List.countP_cons]
      simp only [List.get] at hold
      simp [hold, ha]
    | succ n =>
      simp only [List.set, List.countP_cons]
      simp only [List.get] at hold
      have hn : n < rest.length := by simpa using hi
      rw [ih n a hn hold ha]
      omega

lemma countP_set_decr (p : TaskPhase → Bool) (l : List TaskPhase) :
    ∀ (i : Nat) (a : TaskPhase) (hi : i < l.length),
    p (l.get ⟨i, hi⟩) = true → p a = false →
    (l.set i a).countP p + 1 = l.countP p := by
  induction l with
  | nil =>
    intro i a hi
    simp at hi
  | cons x rest ih =>
    intro i a hi hold ha
    cases i with
    | zero =>
      simp only [List.set, List.countP_cons]
      simp only [List.get] at hold
      simp [hold, ha]
    | succ n =>
      simp only [List.set, List.countP_cons]
      simp only [List.get] at hold
      have hn : n < rest.length := by simpa using hi
      have := ih n a hn hold ha
      omega

lemma inFlightCount_replicate_pending (M : Nat) :
    inFlightCount (List.replicate M .pending) = 0 := by
  induction M with
  | zero => rfl
  | succ n ih =>
    rw [List.replicate_succ]
    unfold inFlightCount at ih ⊢
    rw [List.countP_cons]
    simp [ih]

/-- C9: under the semaphore discipline of `screen_addresses` with capacity
`max_concurrent_requests` and a batch of `M` addresses, `M` larger than the
capacity, every reachable state of the batch has at most
`max_concurrent_requests` per-address requests in flight. -/
theorem C9_concurrency_bound (cfg : Config) (M : Nat) (phases : List TaskPhase)
    (hM : cfg.max_concurrent_requests < M)
    (h : SemaphoreReachable cfg.max_concurrent_requests M phases) :
    inFlightCount phases ≤ cfg.max_concurrent_requests := by
  induction h with
  | init =>
    rw [inFlightCount_replicate_pending]
    exact Nat.zero_le _
  | step s t hs hstep ih =>
    cases hstep with
    | acquire i hi hp hcap =>
      have hincr := countP_set_incr (fun q => q == TaskPhase.inFlight) s i .inFlight hi
        (by rw [hp]; rfl) rfl
      unfold inFlightCount at hcap ⊢
      rw [hincr]
      omega
    | release i hi hp =>
      have hdecr := countP_set_decr (fun q => q == TaskPhase.inFlight) s i .done hi
        (by rw [hp]; rfl) rfl
      unfold inFlightCount at ih ⊢
      omega

/-- Configuration with concurrency capacity 2 for the C9 witness. -/
def cfgC9 : Config := { chainalysis_api_key := "k", max_concurrent_requests := 2 }

/-- Witness for C9: a state of a 3-address batch with both slots of a
capacity-2 semaphore held, reached by two acquire steps. -/
theorem C9_witness :
    inFlightCount [TaskPhase.inFlight, TaskPhase.inFlight, TaskPhase.pending] ≤ 2 := by
  have r0 : SemaphoreReachable 2 3 (List.replicate 3 .pending) := .init
  have r1 : SemaphoreReachable 2 3
      [TaskPhase.inFlight, TaskPhase.pending, TaskPhase.pending] :=
    .step _ _ r0 (.acquire (List.replicate 3 .pending) 0 (by decide) rfl (by decide))
  have r2 : SemaphoreReachable 2 3
      [TaskPhase.inFlight, TaskPhase.inFlight, TaskPhase.pending] :=
    .step _ _ r1
      (.acquire [TaskPhase.inFlight, TaskPhase.pending, TaskPhase.pending] 1
        (by decide) rfl (by decide))
  exact C9_concurrency_bound cfgC9 3 _ (by decide) r2

/-! ### C1: one result per address, in input order -/

lemma format_screening_result_address (cached : Option (List String)) (ii : Bool)
    (a : String) (j : Json) (r : ScreeningResult)
    (h : format_screening_result cached ii a j = .ok r) : r.address = a := by
  unfold format_screening_result at h
  cases cached with
  | none => simp at h
  | some categories =>
    cases j with
    | obj fields =>
      dsimp only at h
      split at h
      · simp at h
      · split at h
        · simp at h
        · split at h
          · simp at h
          · split at h
            · simp at h
            · injection h with h2
              subst h2
              rfl
    | str s => simp at h
    | num n => simp at h
    | bool b => simp at h
    | arr elems => simp at h

lemma screen_address_fst_address (cfg : Config) (cached : Option (List String))
    (session : Bool) (env : String → Nat → ReqOutcome) (a : String) :
    ((screen_address cfg cached session env a).1).address = a := by
  unfold screen_address
  rcases hmr : make_request session env (entityEndpoint a) with ⟨r, lg⟩
  cases r with
  | error e => rfl
  | ok j =>
    dsimp only
    split
    next res hres => exact format_screening_result_address _ _ _ _ _ hres
    next e hres => rfl

lemma foldl_set_getD (g : Nat → α) (order : List Nat) :
    ∀ (acc : List (Option α)) (j : Nat),
    ((order.foldl (fun a i => a.set i (some (g i))) acc).getD j none) =
      if j ∈ order ∧ j < acc.length then some (g j) else acc.getD j none := by
  induction order with
  | nil =>
    intro acc j
    simp
  | cons i rest ih =>
    intro acc j
    rw [List.foldl_cons, ih]
    rw [List.length_set]
    by_cases hjr : j ∈ rest
    · by_cases hjl : j < acc.length
      · rw [if_pos ⟨hjr, hjl⟩, if_pos ⟨List.mem_cons_of_mem i hjr, hjl⟩]
      · rw [if_neg (fun hcon => hjl hcon.2), if_neg (fun hcon => hjl hcon.2)]
        have hl : acc.length ≤ j := Nat.le_of_not_lt hjl
        rw [List.getD_eq_getElem?_getD, List.getD_eq_getElem?_getD]
        rw [List.getElem?_eq_none (by simpa using hl), List.getElem?_eq_none hl]
    · rw [if_neg (fun hcon => hjr hcon.1)]
      by_cases hij : i = j
      · subst hij
        by_cases hil : i < acc.length
        · rw [if_pos ⟨List.mem_cons_self i rest, hil⟩]
          rw [List.getD_eq_getElem?_getD, List.getElem?_set_self (by simpa using hil)]
          rfl
        · rw [if_neg (fun hcon => hil hcon.2)]
          have hl : acc.length ≤ i := Nat.le_of_not_lt hil
          rw [List.getD_eq_getElem?_getD, List.getD_eq_getElem?_getD]
          rw [List.getElem?_eq_none (by simpa using hl), List.getElem?_eq_none hl]
      · have hmem : ¬ (j ∈ i :: rest ∧ j < acc.length) := by
          rintro ⟨hm, _⟩
          rcases List.mem_cons.mp hm with h3 | h3
          · exact hij h3.symm
          · exact hjr h3
        rw [if_neg hmem]
        rw [List.getD_eq_getElem?_getD, List.getD_eq_getElem?_getD,
            List.getElem?_set_ne hij]

/-- C1: whenever `screen_addresses` returns a result list for a non-empty
batch — under any completion order that runs every task — that list carries
exactly one record per input address, the record at position i being for the
address at position i: the list of result addresses equals the input list. -/
theorem C1_screen_addresses_order (cfg : Config) (session : Bool)
    (cached : Option (List String)) (env : String → Nat → ReqOutcome)
    (addresses : List String) (order : List Nat)
    (hne : addresses ≠ [])
    (hord : ∀ i, i < addresses.length → i ∈ order)
    (rs : List ScreeningResult) (st : Option (List String)) (log : List (String × Nat))
    (h : screen_addresses cfg session cached env addresses order = (.ok rs, st, log)) :
    rs.map ScreeningResult.address = addresses := by
  rcases hf : fetch_categories session cached env with ⟨fr, fst, flog⟩
  unfold screen_addresses at h
  rw [hf] at h
  cases fr with
  | error e => simp at h
  | ok cats0 =>
    dsimp only at h
    simp only [Prod.mk.injEq, Except.ok.injEq] at h
    obtain ⟨hres, _, _⟩ := h
    subst hres
    rw [List.map_map]
    refine List.ext_getElem (by simp) ?_
    intro i hi1 hi2
    have hi : i < addresses.length := hi2
    simp only [List.getElem_map, List.getElem_range, Function.comp_apply]
    have hslot :
        (gatherSlots addresses.length
            (fun k => (Except.ok (ε := PyErr)
              (screen_address cfg fst session env (addresses.getD k "")).1, ()).1)
            order).getD i none = some (Except.ok
              (screen_address cfg fst session env (addresses.getD i "")).1) := by
      unfold gatherSlots
      rw [foldl_set_getD]
      rw [if_pos ⟨hord i hi, by simpa using hi⟩]
    rw [gatherSlots] at hslot ⊢
    rw [hslot]
    dsimp only
    rw [screen_address_fst_address]
    rw [List.getD_eq_getElem?_getD, List.getElem?_eq_getElem hi]
    rfl

/-- The row every address receives from `envEntitySuccess` under taxonomy
`["x"]`. -/
def c1result (a : String) : ScreeningResult :=
  { address := a
    status := "success"
    error := none
    row_data :=
      [("address", some (.str a)), ("screenStatus", some (.str "complete")),
       ("risk", some (.str "")), ("riskReason", some (.str "")),
       ("category", some (.str "")), ("name", some (.str "")),
       ("x_direct", none), ("x_indirect", none)]
    raw_response := some (Json.obj []) }

def c1results : List ScreeningResult := [c1result "a", c1result "b"]

def c1log : List (String × Nat) :=
  [("/api/risk/v2/entities/b", 0), ("/api/risk/v2/entities/a", 0)]

/-- Witness for C1: a two-address batch whose tasks complete in reverse
order. -/
theorem C1_witness : c1results.map ScreeningResult.address = ["a", "b"] :=
  C1_screen_addresses_order cfgTest true (some ["x"]) envEntitySuccess ["a", "b"] [1, 0]
    (by simp)
    (by
      intro i hi
      simp only [List.length_cons, List.length_nil] at hi
      interval_cases i <;> simp)
    c1results (some ["x"]) c1log
    (by rfl)

end PyAddressScreen
